import Mathlib

/-!
Verification development for the MyKVServer repository (a networked
key-value server with pub/sub).  Rust strings are modelled by their UTF-8
byte sequences (`List Nat`), byte buffers by `List Nat`, and machine
integers by `Nat`/`Int` with explicit ranges.  Stateful code is modelled
by explicit state passing; fallible code returns `Except`/`Option`.
-/

set_option maxHeartbeats 1000000

/-- Byte value of the ASCII colon separator used by the sled backend. -/
def colonByte : Nat := 58

/-- Payload of a `Value` (mirrors the `value::Value` oneof generated from
the protobuf schema: string, int64 integer, double float, bool, bytes
binary).  The double is represented by its 8 little-endian IEEE-754 bytes,
since prost serialises it as fixed64 and the code never does float
arithmetic on it. -/
inductive ValueInner where
  | Str (s : List Nat)
  | Integer (i : Int)
  | Float (bs : List Nat)
  | Boolean (b : Bool)
  | Binary (bs : List Nat)
deriving DecidableEq, Repr

/-- Mirrors the generated `Value` message: an optional oneof payload.  A
`Value` with `value = none` is the "default value" sentinel. -/
structure Value where
  value : Option ValueInner
deriving DecidableEq, Repr

/-- Default `Value` (no tag set), as produced by `Value::default()`. -/
def defaultValue : Value := ⟨none⟩

/-- Well-formedness of a `Value` as produced by the Rust code: the
integer fits in `i64`, the float is 8 bytes, and lengths fit in `u64`. -/
def ValueWF (v : Value) : Prop :=
  match v.value with
  | none => True
  | some (.Str s) => s.length < 2 ^ 64
  | some (.Integer i) => -(2 ^ 63) ≤ i ∧ i < 2 ^ 63
  | some (.Float bs) => bs.length = 8
  | some (.Boolean _) => True
  | some (.Binary bs) => bs.length < 2 ^ 64

instance (v : Value) : Decidable (ValueWF v) := by
  unfold ValueWF
  cases v.value with
  | none => exact inferInstance
  | some w => cases w <;> exact inferInstance

/-- Mirrors the generated `Kvpair` message: string key and optional value. -/
structure Kvpair where
  key : List Nat
  value : Option Value
deriving DecidableEq, Repr

/-- Mirrors `Kvpair::default()`: empty key, no value. -/
def kvpairDefault : Kvpair := ⟨[], none⟩

/-- Mirrors `Kvpair::new`, which always wraps the value in `Some`. -/
def kvpairNew (k : List Nat) (v : Value) : Kvpair := ⟨k, some v⟩

/-- Mirrors the generated `CommandResponse` message. -/
structure CommandResponse where
  status : Nat
  message : List Nat
  values : List Value
  pairs : List Kvpair
deriving DecidableEq, Repr

/-- Mirrors `CommandResponse::default()`: status 0, everything empty. -/
def defaultResponse : CommandResponse := ⟨0, [], [], []⟩

/-- Mirrors the `command_request::RequestData` oneof: the full set of
request variants of the schema. -/
inductive RequestData where
  | Hget (table key : List Nat)
  | Hgetall (table : List Nat)
  | Hset (table : List Nat) (pair : Option Kvpair)
  | Hdel (table key : List Nat)
  | Hexist (table key : List Nat)
  | Hmget (table : List Nat) (keys : List (List Nat))
  | Hmset (table : List Nat) (pairs : List Kvpair)
  | Hmdel (table : List Nat) (keys : List (List Nat))
  | Hmexist (table : List Nat) (keys : List (List Nat))
  | Subscribe (topic : List Nat)
  | Unsubscribe (topic : List Nat) (id : Nat)
  | Publish (topic : List Nat) (data : List Value)
deriving DecidableEq, Repr

/-- Mirrors the generated `CommandRequest` message: one optional oneof. -/
structure CommandRequest where
  request_data : Option RequestData
deriving DecidableEq, Repr

/-- Modelled from the spec: the error enum lives in `src/error.rs`, which
is not among the provided sources; its variants follow the spec's error
taxonomy (§7) and every constructor actually mentioned in the provided
sources (`NotFound`, `InvalidCommand`, `ConvertError`, `Internal`,
`CertifcateParseError`, plus decode/storage/frame/TLS errors). -/
inductive KvError where
  | NotFound (table key : List Nat)
  | InvalidCommand (msg : List Nat)
  | ConvertError (source target : List Nat)
  | DecodeError (msg : List Nat)
  | EncodeError (msg : List Nat)
  | StorageError (msg : List Nat)
  | FrameError (msg : List Nat)
  | TlsError (msg : List Nat)
  | CertifcateParseError (a b : List Nat)
  | Internal (msg : List Nat)
deriving DecidableEq, Repr

/-- Modelled from the spec: the `Display`/`thiserror` message of each
error variant (`src/error.rs` is not among the provided sources).  The
exact wording is irrelevant to the claims; only the fact that the
response `message` equals the error's display string matters, so each
variant renders a distinct tag byte followed by its fields. -/
def kvErrorDisplay : KvError → List Nat
  | .NotFound t k => 1 :: t ++ k
  | .InvalidCommand m => 2 :: m
  | .ConvertError s t => 3 :: s ++ t
  | .DecodeError m => 4 :: m
  | .EncodeError m => 5 :: m
  | .StorageError m => 6 :: m
  | .FrameError m => 7 :: m
  | .TlsError m => 8 :: m
  | .CertifcateParseError a b => 9 :: a ++ b
  | .Internal m => 10 :: m

/-- Mirrors `From<KvError> for CommandResponse` in `src/pb/mod.rs`:
start from status 500 with `message = e.to_string()` and empty
values/pairs, then downgrade `NotFound` to 404 and `InvalidCommand` to
400. -/
def respOfError (e : KvError) : CommandResponse :=
  let result : CommandResponse :=
    { status := 500, message := kvErrorDisplay e, values := [], pairs := [] }
  match e with
  | .NotFound _ _ => { result with status := 404 }
  | .InvalidCommand _ => { result with status := 400 }
  | _ => result

/-- Mirrors `From<Value> for CommandResponse`: status 200, one value. -/
def respOfValue (v : Value) : CommandResponse :=
  { status := 200, message := [], values := [v], pairs := [] }

/-- Mirrors `From<Vec<Value>> for CommandResponse`: status 200. -/
def respOfValues (vs : List Value) : CommandResponse :=
  { status := 200, message := [], values := vs, pairs := [] }

/-- Mirrors `From<Vec<Kvpair>> for CommandResponse`: status 200. -/
def respOfPairs (ps : List Kvpair) : CommandResponse :=
  { status := 200, message := [], values := [], pairs := ps }

/-- Byte string of the literal `"Request has no data"` passed to
`KvError::InvalidCommand` in `dispatch`. -/
def requestHasNoDataMsg : List Nat :=
  [82, 101, 113, 117, 101, 115, 116, 32, 104, 97, 115, 32, 110, 111,
   32, 100, 97, 116, 97]

/-! ## Storage abstraction and command dispatch (`src/service/mod.rs`) -/

/-- Abstract model of the `Storage` trait as consulted by the unary
command handlers: each operation returns `Except KvError` of the
operation's result, mirroring `Result<_, KvError>`. -/
structure StoreModel where
  get : List Nat → List Nat → Except KvError (Option Value)
  set : List Nat → List Nat → Value → Except KvError (Option Value)
  contains : List Nat → List Nat → Except KvError Bool
  del : List Nat → List Nat → Except KvError (Option Value)
  getAll : List Nat → Except KvError (List Kvpair)

/-- Mirrors `From<bool> for Value`. -/
def boolValue (b : Bool) : Value := ⟨some (.Boolean b)⟩

/-- Modelled from the spec: the `CommandService` handler for HGET
(`src/service/command_service.rs` is not among the provided sources).
Per §4.6, HGET returns the found value (status 200) or a not-found error
(status 404); storage errors convert into error responses. -/
def hgetExecute (t k : List Nat) (st : StoreModel) : CommandResponse :=
  match st.get t k with
  | .ok (some v) => respOfValue v
  | .ok none => respOfError (.NotFound t k)
  | .error e => respOfError e

/-- Modelled from the spec: the HGETALL handler returns all pairs of the
table (status 200) or an error response. -/
def hgetallExecute (t : List Nat) (st : StoreModel) : CommandResponse :=
  match st.getAll t with
  | .ok ps => respOfPairs ps
  | .error e => respOfError e

/-- Modelled from the spec: the HSET handler stores the pair and returns
the previous value or the default value (status 200); a request with no
pair is an invalid command. -/
def hsetExecute (t : List Nat) (p : Option Kvpair) (st : StoreModel) :
    CommandResponse :=
  match p with
  | some pair =>
      match st.set t pair.key (pair.value.getD defaultValue) with
      | .ok prev => respOfValue (prev.getD defaultValue)
      | .error e => respOfError e
  | none => respOfError (.InvalidCommand [])

/-- Modelled from the spec: the HDEL handler removes the key and returns
the previous value (status 200) or not-found (status 404). -/
def hdelExecute (t k : List Nat) (st : StoreModel) : CommandResponse :=
  match st.del t k with
  | .ok (some v) => respOfValue v
  | .ok none => respOfError (.NotFound t k)
  | .error e => respOfError e

/-- Modelled from the spec: the HEXIST handler returns a boolean value
(status 200) or an error response. -/
def hexistExecute (t k : List Nat) (st : StoreModel) : CommandResponse :=
  match st.contains t k with
  | .ok b => respOfValue (boolValue b)
  | .error e => respOfError e

/-- Collects one value per key for HMGET/HMDEL, substituting the default
value for a missing key; the first storage error aborts. -/
def collectVals (op : List Nat → Except KvError (Option Value)) :
    List (List Nat) → Except KvError (List Value)
  | [] => .ok []
  | k :: rest =>
      match op k with
      | .ok v =>
          match collectVals op rest with
          | .ok vs => .ok (v.getD defaultValue :: vs)
          | .error e => .error e
      | .error e => .error e

/-- Modelled from the spec: the HMGET handler returns one value per
input key, with the default value for missing keys (status 200). -/
def hmgetExecute (t : List Nat) (keys : List (List Nat)) (st : StoreModel) :
    CommandResponse :=
  match collectVals (st.get t) keys with
  | .ok vs => respOfValues vs
  | .error e => respOfError e

/-- Stores the pairs left to right for HMSET, collecting the previous
values in order. -/
def hmsetGo (t : List Nat) (st : StoreModel) :
    List Kvpair → Except KvError (List Value)
  | [] => .ok []
  | p :: rest =>
      match st.set t p.key (p.value.getD defaultValue) with
      | .ok prev =>
          match hmsetGo t st rest with
          | .ok vs => .ok (prev.getD defaultValue :: vs)
          | .error e => .error e
      | .error e => .error e

/-- Modelled from the spec: the HMSET handler stores each pair and
returns the previous values in order (status 200). -/
def hmsetExecute (t : List Nat) (ps : List Kvpair) (st : StoreModel) :
    CommandResponse :=
  match hmsetGo t st ps with
  | .ok vs => respOfValues vs
  | .error e => respOfError e

/-- Modelled from the spec: the HMDEL handler deletes each key and
returns the previous values, default for missing (status 200). -/
def hmdelExecute (t : List Nat) (keys : List (List Nat)) (st : StoreModel) :
    CommandResponse :=
  match collectVals (st.del t) keys with
  | .ok vs => respOfValues vs
  | .error e => respOfError e

/-- Collects one boolean value per key for HMEXIST. -/
def collectBools (op : List Nat → Except KvError Bool) :
    List (List Nat) → Except KvError (List Value)
  | [] => .ok []
  | k :: rest =>
      match op k with
      | .ok b =>
          match collectBools op rest with
          | .ok vs => .ok (boolValue b :: vs)
          | .error e => .error e
      | .error e => .error e

/-- Modelled from the spec: the HMEXIST handler returns one boolean
value per input key (status 200). -/
def hmexistExecute (t : List Nat) (keys : List (List Nat))
    (st : StoreModel) : CommandResponse :=
  match collectBools (st.contains t) keys with
  | .ok vs => respOfValues vs
  | .error e => respOfError e

/-- Mirrors `dispatch` in `src/service/mod.rs`: route each populated
unary variant to its handler, map absent `request_data` to
`InvalidCommand("Request has no data")`, and fall through to the
default response for the pub/sub variants (the `_` arm). -/
def dispatch (cmd : CommandRequest) (st : StoreModel) : CommandResponse :=
  match cmd.request_data with
  | some (.Hget t k) => hgetExecute t k st
  | some (.Hset t p) => hsetExecute t p st
  | some (.Hdel t k) => hdelExecute t k st
  | some (.Hexist t k) => hexistExecute t k st
  | some (.Hmget t ks) => hmgetExecute t ks st
  | some (.Hmset t ps) => hmsetExecute t ps st
  | some (.Hmdel t ks) => hmdelExecute t ks st
  | some (.Hmexist t ks) => hmexistExecute t ks st
  | some (.Hgetall t) => hgetallExecute t st
  | none => respOfError (.InvalidCommand requestHasNoDataMsg)
  | _ => defaultResponse

/-- Abstract outcome of the streaming dispatcher; the topic service
(`src/service/topic_service.rs`, not among the provided sources) is kept
opaque, only which arm of `dispatch_stream` ran is recorded. -/
inductive StreamOut where
  | subscribed (topic : List Nat)
  | unsubscribed (topic : List Nat) (id : Nat)
  | published (topic : List Nat) (data : List Value)
deriving DecidableEq, Repr

/-- Mirrors `dispatch_stream` in `src/service/mod.rs`: the three pub/sub
variants each run their topic-service handler; any other request hits
the `unreachable!()` arm, modelled as `none`. -/
def dispatchStream (cmd : CommandRequest) : Option StreamOut :=
  match cmd.request_data with
  | some (.Subscribe t) => some (.subscribed t)
  | some (.Unsubscribe t i) => some (.unsubscribed t i)
  | some (.Publish t d) => some (.published t d)
  | _ => none

/-- Tests whether a request is one of the three pub/sub variants. -/
def isPubSub (cmd : CommandRequest) : Bool :=
  match cmd.request_data with
  | some (.Subscribe _) => true
  | some (.Unsubscribe _ _) => true
  | some (.Publish _ _) => true
  | _ => false

/-! ## Service hook pipeline (`src/service/mod.rs`, `Service::execute`) -/

/-- Observable effect of one immutable hook invocation; hooks in the
Rust code are `fn(&Arg)` pointers whose only effect is external (e.g.
logging), so each hook is modelled as a function from its argument to an
event, and a notification is the in-order list of events. -/
inductive HookEvent where
  | sawRequest (tag : Nat) (c : CommandRequest)
  | sawResponse (tag : Nat) (r : CommandResponse)
deriving DecidableEq, Repr

/-- Mirrors `Notify for Vec<fn(&Arg)>`: invoke every hook on the
argument, in registration order. -/
def notifyAll {α : Type} (fs : List (α → HookEvent)) (a : α) :
    List HookEvent :=
  fs.map (fun f => f a)

/-- Mirrors `NotifyMut for Vec<fn(&mut Arg)>`: apply every hook to the
argument in registration order, threading the mutations. -/
def notifyMutAll {α : Type} (fs : List (α → α)) (a : α) : α :=
  fs.foldl (fun x f => f x) a

/-- Model of `ServiceInner`: the storage plus the four hook lists. -/
structure ServiceModel where
  store : StoreModel
  on_received : List (CommandRequest → HookEvent)
  on_executed : List (CommandResponse → HookEvent)
  on_before_send : List (CommandResponse → CommandResponse)
  on_after_send : List (Unit → HookEvent)

/-- Result of `Service::execute`: either the streaming dispatch outcome
(returned as-is) or a one-element stream holding a single response. -/
inductive ExecOut where
  | streaming (s : Option StreamOut)
  | single (r : CommandResponse)
deriving DecidableEq, Repr

/-- Mirrors `Service::execute`: notify `on_received` with the request,
run the unary `dispatch`; if the result is the default response delegate
to `dispatch_stream` (no further hooks), else notify `on_executed`, let
`on_before_send` mutate the response, and yield it as a singleton
stream.  The first component records every immutable hook invocation in
order. -/
def serviceExecute (svc : ServiceModel) (cmd : CommandRequest) :
    List HookEvent × ExecOut :=
  let tr := notifyAll svc.on_received cmd
  let res := dispatch cmd svc.store
  if res = defaultResponse then
    (tr, .streaming (dispatchStream cmd))
  else
    let tr := tr ++ notifyAll svc.on_executed res
    let res := notifyMutAll svc.on_before_send res
    (tr, .single res)

/-! ## Varint / protobuf encoding of `Value`

The `Value` message is serialised with prost (`TryFrom<Value> for
Vec<u8>` calls `v.encode`, `TryFrom<&[u8]> for Value` calls
`Value::decode` in `src/pb/mod.rs`).  The generated codec
(`src/pb/abi.rs`, produced from the IDL) is not among the provided
sources; the model below follows the standard protobuf wire format for
the schema given in the spec (§6): field 1 string, field 2 int64, field
3 double, field 4 bool, field 5 bytes. -/

/-- LEB128 variable-length encoding of an unsigned integer. -/
def varintEnc (n : Nat) : List Nat :=
  if h : n < 128 then [n]
  else (n % 128 + 128) :: varintEnc (n / 128)
decreasing_by exact Nat.div_lt_self (by omega) (by omega)

/-- LEB128 decoding with prost's 10-byte/64-bit guard: at `shift = 70`
the varint is too long and decoding fails. -/
def varintDecAux : List Nat → Nat → Nat → Option (Nat × List Nat)
  | [], _, _ => none
  | b :: rest, shift, acc =>
      if shift ≥ 70 then none
      else if b < 128 then some (acc + b * 2 ^ shift, rest)
      else varintDecAux rest (shift + 7) (acc + (b - 128) * 2 ^ shift)

/-- Decodes one varint from the front of the buffer. -/
def varintDec (l : List Nat) : Option (Nat × List Nat) :=
  varintDecAux l 0 0

/-- Two's-complement reinterpretation `i64 → u64` used when prost
serialises an `int64` field. -/
def u64OfI64 (i : Int) : Nat := (i % (2 ^ 64 : Int)).toNat

/-- Two's-complement reinterpretation `u64 → i64` used when prost
deserialises an `int64` field. -/
def i64OfU64 (n : Nat) : Int :=
  if n < 2 ^ 63 then (n : Int) else (n : Int) - 2 ^ 64

/-- Protobuf encoding of a `Value` message: the set oneof field is
emitted with its tag; an unset oneof encodes to the empty buffer. -/
def encodeValue (v : Value) : List Nat :=
  match v.value with
  | none => []
  | some (.Str s) => 0x0A :: varintEnc s.length ++ s
  | some (.Integer i) => 0x10 :: varintEnc (u64OfI64 i)
  | some (.Float bs) => 0x19 :: bs
  | some (.Boolean b) => 0x20 :: varintEnc (cond b 1 0)
  | some (.Binary bs) => 0x2A :: varintEnc bs.length ++ bs

/-- Reads `n` bytes from the front of the buffer, failing when fewer
are available. -/
def takeBytes (n : Nat) (l : List Nat) : Option (List Nat × List Nat) :=
  if n ≤ l.length then some (l.take n, l.drop n) else none

/-- Decodes the fields of a `Value` message, merging each recognised
field into the accumulator and skipping unknown fields by wire type, as
prost's generated `merge` does.  `fuel` bounds the number of field
records; each record consumes at least one byte, so `buf.length + 1`
suffices. -/
def decodeFieldsAux : Nat → Value → List Nat → Option Value
  | _, acc, [] => some acc
  | 0, _, _ :: _ => none
  | fuel + 1, acc, buf@(_ :: _) =>
      match varintDec buf with
      | none => none
      | some (key, rest) =>
          let fieldNo := key / 8
          let wire := key % 8
          if fieldNo = 1 ∧ wire = 2 then
            match varintDec rest with
            | none => none
            | some (len, rest2) =>
                match takeBytes len rest2 with
                | none => none
                | some (s, rest3) =>
                    decodeFieldsAux fuel ⟨some (.Str s)⟩ rest3
          else if fieldNo = 2 ∧ wire = 0 then
            match varintDec rest with
            | none => none
            | some (n, rest2) =>
                if n < 2 ^ 64 then
                  decodeFieldsAux fuel ⟨some (.Integer (i64OfU64 n))⟩ rest2
                else none
          else if fieldNo = 3 ∧ wire = 1 then
            match takeBytes 8 rest with
            | none => none
            | some (bs, rest2) =>
                decodeFieldsAux fuel ⟨some (.Float bs)⟩ rest2
          else if fieldNo = 4 ∧ wire = 0 then
            match varintDec rest with
            | none => none
            | some (n, rest2) =>
                decodeFieldsAux fuel ⟨some (.Boolean (n ≠ 0))⟩ rest2
          else if fieldNo = 5 ∧ wire = 2 then
            match varintDec rest with
            | none => none
            | some (len, rest2) =>
                match takeBytes len rest2 with
                | none => none
                | some (bs, rest3) =>
                    decodeFieldsAux fuel ⟨some (.Binary bs)⟩ rest3
          else
            -- unknown field: skip its payload by wire type
            if wire = 0 then
              match varintDec rest with
              | none => none
              | some (_, rest2) => decodeFieldsAux fuel acc rest2
            else if wire = 1 then
              match takeBytes 8 rest with
              | none => none
              | some (_, rest2) => decodeFieldsAux fuel acc rest2
            else if wire = 2 then
              match varintDec rest with
              | none => none
              | some (len, rest2) =>
                  match takeBytes len rest2 with
                  | none => none
                  | some (_, rest3) => decodeFieldsAux fuel acc rest3
            else if wire = 5 then
              match takeBytes 4 rest with
              | none => none
              | some (_, rest2) => decodeFieldsAux fuel acc rest2
            else none

/-- Mirrors `TryFrom<&[u8]> for Value` (`Value::decode`): parse the
whole buffer as a `Value` message, surfacing failure as a decode
error. -/
def decodeValue (l : List Nat) : Except KvError Value :=
  match decodeFieldsAux (l.length + 1) defaultValue l with
  | some v => .ok v
  | none => .error (.DecodeError [])

/-- Mirrors `TryFrom<Value> for Vec<u8>` (`v.encode` into a `Vec`):
encoding into a growable buffer cannot fail. -/
def valueToBytes (v : Value) : List Nat := encodeValue v

/-! ## Sled-backed storage (`src/storage/sleddb.rs`) -/

/-- Model of the sled `Db`: an association list from full-key byte
strings to stored value byte strings (order models sled's iteration
order; the claims only use membership and same-key lookups). -/
abbrev SledMap : Type := List (List Nat × List Nat)

/-- Lookup in the underlying map (sled `Db::get`). -/
def sledLookup (db : SledMap) (k : List Nat) : Option (List Nat) :=
  match db with
  | [] => none
  | (k', v') :: rest => if k' = k then some v' else sledLookup rest k

/-- Insert into the underlying map, returning the previous value (sled
`Db::insert`). -/
def sledInsert (db : SledMap) (k v : List Nat) :
    Option (List Nat) × SledMap :=
  match db with
  | [] => (none, [(k, v)])
  | (k', v') :: rest =>
      if k' = k then (some v', (k, v) :: rest)
      else
        let r := sledInsert rest k v
        (r.1, (k', v') :: r.2)

/-- Remove from the underlying map, returning the previous value (sled
`Db::remove`). -/
def sledRemove (db : SledMap) (k : List Nat) :
    Option (List Nat) × SledMap :=
  match db with
  | [] => (none, [])
  | (k', v') :: rest =>
      if k' = k then (some v', rest)
      else
        let r := sledRemove rest k
        (r.1, (k', v') :: r.2)

/-- Enumerates the entries whose key starts with the given byte-string
prefix, in map order (sled `Db::scan_prefix`). -/
def sledScanPre (db : SledMap) (pre : List Nat) :
    List (List Nat × List Nat) :=
  db.filter (fun e => pre.isPrefixOf e.1)

/-- Mirrors `SledDb::get_full_key`: `format!("{}:{}", table, key)`. -/
def getFullKey (table key : List Nat) : List Nat :=
  table ++ [colonByte] ++ key

/-- Mirrors `SledDb::get_table_prefix`: `format!("{}:", table)`. -/
def getTablePre (table : List Nat) : List Nat :=
  table ++ [colonByte]

/-- Splits a byte string at every occurrence of the separator byte, as
Rust's `str::split(':')` does on the UTF-8 bytes (the separator is
ASCII, so byte-level and char-level splitting agree). -/
def splitOnByte (sep : Nat) : List Nat → List (List Nat)
  | [] => [[]]
  | b :: rest =>
      let r := splitOnByte sep rest
      if b = sep then [] :: r
      else
        match r with
        | [] => [[b]]
        | seg :: segs => (b :: seg) :: segs

/-- Mirrors `ivec_to_key`: split the stored full key on `':'`, skip the
first segment, and take the next one; `none` models the `unwrap` panic
when no second segment exists. -/
def ivecToKey (l : List Nat) : Option (List Nat) :=
  ((splitOnByte colonByte l).drop 1).head?

/-- Mirrors `From<Result<(IVec, IVec), sled::Error>> for Kvpair` in the
success case: decode the stored value bytes; on success build
`Kvpair::new(ivec_to_key(k), v)`, otherwise return `Kvpair::default()`.
The `ivec_to_key` panic cannot occur for keys holding a separator; the
model maps it to the default pair's key position via `Option.getD`
applied only where a second segment exists. -/
def kvpairOfEntry (e : List Nat × List Nat) : Kvpair :=
  match decodeValue e.2 with
  | .ok v =>
      match ivecToKey e.1 with
      | some k => kvpairNew k v
      | none => kvpairDefault
  | .error _ => kvpairDefault

/-- Mirrors `Storage::get` for `SledDb`: look up `table:key` and decode
the stored bytes. -/
def sledGet (db : SledMap) (table key : List Nat) :
    Except KvError (Option Value) :=
  match sledLookup db (getFullKey table key) with
  | none => .ok none
  | some bs =>
      match decodeValue bs with
      | .ok v => .ok (some v)
      | .error e => .error e

/-- Mirrors `Storage::set` for `SledDb`: encode the value, insert under
`table:key`, and decode the previous bytes if any.  Returns the result
together with the successor map. -/
def sledSet (db : SledMap) (table key : List Nat) (v : Value) :
    Except KvError (Option Value) × SledMap :=
  let data := valueToBytes v
  let r := sledInsert db (getFullKey table key) data
  match r.1 with
  | none => (.ok none, r.2)
  | some bs =>
      match decodeValue bs with
      | .ok pv => (.ok (some pv), r.2)
      | .error e => (.error e, r.2)

/-- Mirrors `Storage::contains` for `SledDb`. -/
def sledContains (db : SledMap) (table key : List Nat) :
    Except KvError Bool :=
  .ok (sledLookup db (getFullKey table key)).isSome

/-- Mirrors `Storage::del` for `SledDb`: remove `table:key` and decode
the previous bytes if any. -/
def sledDel (db : SledMap) (table key : List Nat) :
    Except KvError (Option Value) × SledMap :=
  let r := sledRemove db (getFullKey table key)
  match r.1 with
  | none => (.ok none, r.2)
  | some bs =>
      match decodeValue bs with
      | .ok pv => (.ok (some pv), r.2)
      | .error e => (.error e, r.2)

/-- Mirrors `Storage::get_all` for `SledDb`: scan the table prefix and
convert every raw entry into a `Kvpair` (decode failures silently
become `Kvpair::default()` in the `From` impl). -/
def sledGetAll (db : SledMap) (table : List Nat) :
    Except KvError (List Kvpair) :=
  .ok ((sledScanPre db (getTablePre table)).map kvpairOfEntry)

/-- Mirrors `Storage::get_iter` for `SledDb`: the `StorageIter` wrapper
maps the same conversion over the same prefix scan, so the produced
sequence is the same list of pairs. -/
def sledGetIter (db : SledMap) (table : List Nat) : List Kvpair :=
  (sledScanPre db (getTablePre table)).map kvpairOfEntry

/-! ## ProstStream sink and stream (`src/network/stream.rs`) -/

/-- State of the `ProstStream` write half plus the underlying stream:
`streamBytes` are the bytes the underlying stream has accepted,
`closedFlag` records a completed shutdown, `wbuf`/`written` mirror the
fields of the struct. -/
structure SinkState where
  streamBytes : List Nat
  closedFlag : Bool
  wbuf : List Nat
  written : Nat
deriving DecidableEq, Repr

/-- Mirrors `poll_ready`: immediately `Ready(Ok(()))`, state untouched
(backpressure is delegated to the OS protocol stack). -/
def pollReady (st : SinkState) : Bool × SinkState := (true, st)

/-- Mirrors `start_send`: encode the item into the write buffer; the
underlying stream is not touched.  The frame encoder
(`src/network/frame.rs`, not among the provided sources) is passed in
abstractly as the bytes it appends. -/
def startSend (st : SinkState) (encoded : List Nat) : SinkState :=
  { st with wbuf := st.wbuf ++ encoded }

/-- Mirrors the `poll_flush` loop: while `written != wbuf.len()`, one
`poll_write` of the suffix `wbuf[written..]` accepts some bytes; the
oracle `steps` lists the byte count each successive `poll_write` call
accepts.  When the loop exits, the write buffer is cleared and the
counter reset; running out of oracle entries models `Poll::Pending`. -/
def pollFlushAux (steps : List Nat) (st : SinkState) : Option SinkState :=
  if st.written = st.wbuf.length then
    some { st with wbuf := [], written := 0 }
  else
    match steps with
    | [] => none
    | n :: rest =>
        pollFlushAux rest
          { st with
            streamBytes := st.streamBytes ++ (st.wbuf.drop st.written).take n,
            written := st.written + n }

/-- Mirrors `poll_close`: a full flush followed by stream shutdown. -/
def pollClose (steps : List Nat) (st : SinkState) : Option SinkState :=
  (pollFlushAux steps st).map (fun s => { s with closedFlag := true })

/-- Oracle validity for a flush: each `poll_write` accepts at least one
byte and no more than what remains, and the loop finishes within the
oracle (the remainder reaches zero). -/
def stepsFit : List Nat → Nat → Bool
  | _, 0 => true
  | [], _ + 1 => false
  | n :: rest, rem + 1 =>
      decide (1 ≤ n) && decide (n ≤ rem + 1) && stepsFit rest (rem + 1 - n)

/-- State of the `ProstStream` read half: just the read buffer. -/
structure ReadState where
  rbuf : List Nat
deriving DecidableEq, Repr

/-- Outcome of one `poll_next` call. -/
inductive PollNextOut (μ : Type) where
  | assertFail
  | ended
  | item (r : Except KvError μ) (after : ReadState)

/-- Mirrors `poll_next`: assert that the read buffer is empty, then
`read_frame` appends one complete frame (the head of the `frames`
oracle; an exhausted oracle models end of stream), and `decode_frame`
consumes the frame from the buffer, leaving its remainder.  The frame
decoder (`src/network/frame.rs`, not among the provided sources) is
passed in abstractly as `dec`. -/
def pollNext {μ : Type}
    (dec : List Nat → Except KvError (μ × List Nat))
    (frames : List (List Nat)) (st : ReadState) :
    PollNextOut μ × List (List Nat) :=
  if !st.rbuf.isEmpty then (.assertFail, frames)
  else
    match frames with
    | [] => (.ended, [])
    | f :: rest =>
        match dec (st.rbuf ++ f) with
        | .ok (m, leftover) => (.item (.ok m) ⟨leftover⟩, rest)
        | .error e => (.item (.error e) ⟨st.rbuf ++ f⟩, rest)

/-- Repeatedly calls `pollNext` until the oracle is exhausted,
collecting the decoded items; `none` signals that some call hit the
assertion. -/
def pollNextAll {μ : Type}
    (dec : List Nat → Except KvError (μ × List Nat)) :
    List (List Nat) → ReadState → Option (List (Except KvError μ))
  | frames, st =>
    match h : pollNext dec frames st with
    | (.assertFail, _) => none
    | (.ended, _) => some []
    | (.item r st', rest) =>
        match pollNextAll dec rest st' with
        | some items => some (r :: items)
        | none => none
decreasing_by
  simp only [pollNext] at h
  split at h
  · simp_all
  · split at h
    · simp_all
    · split at h <;> simp_all

/-! ## Private-key loading (`src/network/security/tls.rs`) -/

/-- Abstract item of a PEM file as seen by `rustls_pemfile`: a PKCS#8
section, a PKCS#1 RSA section, or something else; parse success carries
an opaque key identifier, `none` is a section that fails to parse. -/
inductive PemEntry where
  | pkcs8 (parsed : Option Nat)
  | rsa (parsed : Option Nat)
  | other
deriving DecidableEq, Repr

/-- Parsed private key (mirrors `PrivateKeyDer`). -/
inductive PrivateKeyModel where
  | pkcs8Key (k : Nat)
  | rsaKey (k : Nat)
deriving DecidableEq, Repr

/-- Models `rustls_pemfile::pkcs8_private_keys`: the per-section parse
results of every PKCS#8 section of the file, in order. -/
def pkcs8PrivateKeys (file : List PemEntry) : List (Option Nat) :=
  file.filterMap (fun e =>
    match e with
    | .pkcs8 r => some r
    | _ => none)

/-- Models `rustls_pemfile::rsa_private_keys`: the per-section parse
results of every PKCS#1 RSA section of the file, in order. -/
def rsaPrivateKeys (file : List PemEntry) : List (Option Nat) :=
  file.filterMap (fun e =>
    match e with
    | .rsa r => some r
    | _ => none)

/-- Mirrors `load_key`: take the first successfully-parsed PKCS#8 key
(`filter_map(Result::ok).next()`); if none, rewind and take the first
successfully-parsed PKCS#1 RSA key; otherwise fail with a
certificate-parse error on `("private", "key")`. -/
def loadKey (file : List PemEntry) : Except KvError PrivateKeyModel :=
  match ((pkcs8PrivateKeys file).filterMap id).head? with
  | some k => .ok (.pkcs8Key k)
  | none =>
      match ((rsaPrivateKeys file).filterMap id).head? with
      | some k => .ok (.rsaKey k)
      | none =>
          .error (.CertifcateParseError
            [112, 114, 105, 118, 97, 116, 101] [107, 101, 121])

/-! ## Concrete instances used by witnesses -/

/-- Well-formedness of the sled map model: stored keys are distinct
(sled is a real map, so no key occurs twice). -/
def SledWF (db : SledMap) : Prop := (db.map Prod.fst).Nodup

/-- Trivial concrete storage: every key is absent, every table empty. -/
def trivialStore : StoreModel where
  get := fun _ _ => .ok none
  set := fun _ _ _ => .ok none
  contains := fun _ _ => .ok false
  del := fun _ _ => .ok none
  getAll := fun _ => .ok []

/-- Concrete service with one hook of each kind, for witnesses. -/
def sampleService : ServiceModel where
  store := trivialStore
  on_received := [fun c => .sawRequest 0 c]
  on_executed := [fun r => .sawResponse 1 r]
  on_before_send := [fun r => { r with status := 201 }]
  on_after_send := []

/-- Concrete sled map holding the full key `"t:k"` with a stored byte
string (`0x80`, a truncated varint) that fails to decode as a `Value`. -/
def badDb : SledMap := [([116, 58, 107], [128])]

/-! ## Helper lemmas -/

theorem respOfError_status_pos (e : KvError) : 0 < (respOfError e).status := by
  cases e <;> simp [respOfError]

theorem respOfError_ne_default (e : KvError) :
    respOfError e ≠ defaultResponse := by
  intro h
  have hs := congrArg CommandResponse.status h
  have hp := respOfError_status_pos e
  simp [defaultResponse] at hs
  omega

theorem respOfValue_ne_default (v : Value) :
    respOfValue v ≠ defaultResponse := by
  intro h
  have hs := congrArg CommandResponse.status h
  simp [respOfValue, defaultResponse] at hs

theorem respOfValues_ne_default (vs : List Value) :
    respOfValues vs ≠ defaultResponse := by
  intro h
  have hs := congrArg CommandResponse.status h
  simp [respOfValues, defaultResponse] at hs

theorem respOfPairs_ne_default (ps : List Kvpair) :
    respOfPairs ps ≠ defaultResponse := by
  intro h
  have hs := congrArg CommandResponse.status h
  simp [respOfPairs, defaultResponse] at hs

theorem hgetExecute_ne_default (t k : List Nat) (st : StoreModel) :
    hgetExecute t k st ≠ defaultResponse := by
  unfold hgetExecute
  split
  · exact respOfValue_ne_default _
  · exact respOfError_ne_default _
  · exact respOfError_ne_default _

theorem hgetallExecute_ne_default (t : List Nat) (st : StoreModel) :
    hgetallExecute t st ≠ defaultResponse := by
  unfold hgetallExecute
  split
  · exact respOfPairs_ne_default _
  · exact respOfError_ne_default _

theorem hsetExecute_ne_default (t : List Nat) (p : Option Kvpair)
    (st : StoreModel) : hsetExecute t p st ≠ defaultResponse := by
  unfold hsetExecute
  split
  · split
    · exact respOfValue_ne_default _
    · exact respOfError_ne_default _
  · exact respOfError_ne_default _

theorem hdelExecute_ne_default (t k : List Nat) (st : StoreModel) :
    hdelExecute t k st ≠ defaultResponse := by
  unfold hdelExecute
  split
  · exact respOfValue_ne_default _
  · exact respOfError_ne_default _
  · exact respOfError_ne_default _

theorem hexistExecute_ne_default (t k : List Nat) (st : StoreModel) :
    hexistExecute t k st ≠ defaultResponse := by
  unfold hexistExecute
  split
  · exact respOfValue_ne_default _
  · exact respOfError_ne_default _

theorem hmgetExecute_ne_default (t : List Nat) (ks : List (List Nat))
    (st : StoreModel) : hmgetExecute t ks st ≠ defaultResponse := by
  unfold hmgetExecute
  split
  · exact respOfValues_ne_default _
  · exact respOfError_ne_default _

theorem hmsetExecute_ne_default (t : List Nat) (ps : List Kvpair)
    (st : StoreModel) : hmsetExecute t ps st ≠ defaultResponse := by
  unfold hmsetExecute
  split
  · exact respOfValues_ne_default _
  · exact respOfError_ne_default _

theorem hmdelExecute_ne_default (t : List Nat) (ks : List (List Nat))
    (st : StoreModel) : hmdelExecute t ks st ≠ defaultResponse := by
  unfold hmdelExecute
  split
  · exact respOfValues_ne_default _
  · exact respOfError_ne_default _

theorem hmexistExecute_ne_default (t : List Nat) (ks : List (List Nat))
    (st : StoreModel) : hmexistExecute t ks st ≠ defaultResponse := by
  unfold hmexistExecute
  split
  · exact respOfValues_ne_default _
  · exact respOfError_ne_default _

theorem dispatch_default_iff (cmd : CommandRequest) (st : StoreModel) :
    dispatch cmd st = defaultResponse ↔ isPubSub cmd = true := by
  obtain ⟨rd⟩ := cmd
  cases rd with
  | none =>
      simp [dispatch, isPubSub]
      exact respOfError_ne_default _
  | some d =>
      cases d <;>
        simp [dispatch, isPubSub,
          hgetExecute_ne_default, hgetallExecute_ne_default,
          hsetExecute_ne_default, hdelExecute_ne_default,
          hexistExecute_ne_default, hmgetExecute_ne_default,
          hmsetExecute_ne_default, hmdelExecute_ne_default,
          hmexistExecute_ne_default]

/-! ## Claim theorems -/

/-- C1: for every `CommandRequest`, the unary `dispatch` returns the
default `CommandResponse` (status 0, all fields empty) if and only if
the request's `request_data` is a Subscribe, Unsubscribe, or Publish
variant (every other populated variant — and the absent case — yields a
non-default response), and whenever the default response is produced the
streaming dispatcher `dispatch_stream` takes one of its three real arms,
so its `unreachable!()` arm is never hit when `execute` delegates to
it. -/
theorem C1_dispatch_default_iff_pubsub (cmd : CommandRequest)
    (st : StoreModel) :
    (dispatch cmd st = defaultResponse ↔ isPubSub cmd = true)
    ∧ (dispatch cmd st = defaultResponse →
        (dispatchStream cmd).isSome = true) := by
  refine ⟨dispatch_default_iff cmd st, fun h => ?_⟩
  have hp := (dispatch_default_iff cmd st).mp h
  obtain ⟨rd⟩ := cmd
  cases rd with
  | none => simp [isPubSub] at hp
  | some d => cases d <;> simp_all [isPubSub, dispatchStream]

/-- Witness for C1 at a concrete subscribe request and concrete
storage. -/
theorem C1_witness :
    (dispatch ⟨some (.Subscribe [97])⟩ trivialStore = defaultResponse ↔
        isPubSub ⟨some (.Subscribe [97])⟩ = true)
    ∧ (dispatch ⟨some (.Subscribe [97])⟩ trivialStore = defaultResponse →
        (dispatchStream ⟨some (.Subscribe [97])⟩).isSome = true) :=
  C1_dispatch_default_iff_pubsub ⟨some (.Subscribe [97])⟩ trivialStore

/-- C4: converting a `KvError` into a `CommandResponse` yields status
404 for the not-found variant, 400 for the invalid-command variant, and
500 for every other variant, always with `message` equal to the error's
display string and empty `values`/`pairs`; and dispatching a request
with absent `request_data` yields the invalid-command response with
status 400. -/
theorem C4_error_conversion (e : KvError) (st : StoreModel) :
    ((∃ t k, e = .NotFound t k) → (respOfError e).status = 404)
    ∧ ((∃ m, e = .InvalidCommand m) → (respOfError e).status = 400)
    ∧ ((¬ ∃ t k, e = .NotFound t k) → (¬ ∃ m, e = .InvalidCommand m) →
        (respOfError e).status = 500)
    ∧ (respOfError e).message = kvErrorDisplay e
    ∧ (respOfError e).values = []
    ∧ (respOfError e).pairs = []
    ∧ dispatch ⟨none⟩ st = respOfError (.InvalidCommand requestHasNoDataMsg)
    ∧ (dispatch ⟨none⟩ st).status = 400 := by
  refine ⟨?_, ?_, ?_, ?_, ?_, ?_, rfl, rfl⟩ <;> cases e <;>
    simp [respOfError]

/-- Witness for C4 at the concrete error `NotFound("t", "k")`. -/
theorem C4_witness :
    ((∃ t k, KvError.NotFound [116] [107] = .NotFound t k) →
        (respOfError (.NotFound [116] [107])).status = 404)
    ∧ ((∃ m, KvError.NotFound [116] [107] = .InvalidCommand m) →
        (respOfError (.NotFound [116] [107])).status = 400)
    ∧ ((¬ ∃ t k, KvError.NotFound [116] [107] = .NotFound t k) →
        (¬ ∃ m, KvError.NotFound [116] [107] = .InvalidCommand m) →
        (respOfError (.NotFound [116] [107])).status = 500)
    ∧ (respOfError (.NotFound [116] [107])).message
        = kvErrorDisplay (.NotFound [116] [107])
    ∧ (respOfError (.NotFound [116] [107])).values = []
    ∧ (respOfError (.NotFound [116] [107])).pairs = []
    ∧ dispatch ⟨none⟩ trivialStore
        = respOfError (.InvalidCommand requestHasNoDataMsg)
    ∧ (dispatch ⟨none⟩ trivialStore).status = 400 :=
  C4_error_conversion (.NotFound [116] [107]) trivialStore

/-- C2: `Service::execute` first invokes every `on_received` hook on the
request (they are the first events of the trace, in order); if the unary
dispatch result is the default response it returns the streaming
dispatch result as-is, with no `on_executed` or `on_before_send` hook
applied; otherwise it invokes every `on_executed` hook on the response,
then folds every `on_before_send` hook over it (mutation), and returns a
one-element stream yielding the mutated response. -/
theorem C2_execute_hook_pipeline (svc : ServiceModel)
    (cmd : CommandRequest) :
    (serviceExecute svc cmd).1.take svc.on_received.length
        = svc.on_received.map (fun f => f cmd)
    ∧ (dispatch cmd svc.store = defaultResponse →
        serviceExecute svc cmd
          = (svc.on_received.map (fun f => f cmd),
             .streaming (dispatchStream cmd)))
    ∧ (dispatch cmd svc.store ≠ defaultResponse →
        serviceExecute svc cmd
          = (svc.on_received.map (fun f => f cmd)
               ++ svc.on_executed.map (fun f => f (dispatch cmd svc.store)),
             .single (svc.on_before_send.foldl (fun r f => f r)
               (dispatch cmd svc.store)))) := by
  by_cases h : dispatch cmd svc.store = defaultResponse
  · refine ⟨?_, fun _ => ?_, fun hne => absurd h hne⟩ <;>
      simp [serviceExecute, notifyAll, h, List.take_left']
  · refine ⟨?_, fun he => absurd he h, fun _ => ?_⟩ <;>
      simp [serviceExecute, notifyAll, notifyMutAll, h, List.take_left']

/-- Witness for C2 at a concrete service with one hook of each kind and
a concrete HGET request. -/
theorem C2_witness :
    (serviceExecute sampleService ⟨some (.Hget [116] [107])⟩).1.take
        sampleService.on_received.length
      = sampleService.on_received.map
          (fun f => f ⟨some (.Hget [116] [107])⟩)
    ∧ (dispatch ⟨some (.Hget [116] [107])⟩ sampleService.store
          = defaultResponse →
        serviceExecute sampleService ⟨some (.Hget [116] [107])⟩
          = (sampleService.on_received.map
              (fun f => f ⟨some (.Hget [116] [107])⟩),
             .streaming (dispatchStream ⟨some (.Hget [116] [107])⟩)))
    ∧ (dispatch ⟨some (.Hget [116] [107])⟩ sampleService.store
          ≠ defaultResponse →
        serviceExecute sampleService ⟨some (.Hget [116] [107])⟩
          = (sampleService.on_received.map
              (fun f => f ⟨some (.Hget [116] [107])⟩)
               ++ sampleService.on_executed.map
                 (fun f => f (dispatch ⟨some (.Hget [116] [107])⟩
                   sampleService.store)),
             .single (sampleService.on_before_send.foldl
               (fun r f => f r)
               (dispatch ⟨some (.Hget [116] [107])⟩
                 sampleService.store)))) :=
  C2_execute_hook_pipeline sampleService ⟨some (.Hget [116] [107])⟩

theorem varintDecAux_enc (n : Nat) :
    ∀ shift acc rest, shift < 70 → n < 2 ^ (70 - shift) →
      varintDecAux (varintEnc n ++ rest) shift acc
        = some (acc + n * 2 ^ shift, rest) := by
  induction n using Nat.strong_induction_on with
  | _ n ih =>
    intro shift acc rest hshift hn
    unfold varintEnc
    split
    · rename_i hlt
      simp only [List.cons_append, List.nil_append, varintDecAux]
      rw [if_neg (by omega), if_pos hlt]
      simp
    · rename_i hge
      push_neg at hge
      simp only [List.cons_append, varintDecAux]
      rw [if_neg (by omega), if_neg (by omega)]
      have h7 : 7 < 70 - shift := by
        by_contra hc
        push_neg at hc
        have : (2 : Nat) ^ (70 - shift) ≤ 2 ^ 7 :=
          Nat.pow_le_pow_right (by omega) hc
        omega
      have hrec := ih (n / 128) (Nat.div_lt_self (by omega) (by omega))
        (shift + 7) (acc + (n % 128 + 128 - 128) * 2 ^ shift) rest
        (by omega)
        (by
          have heq : 70 - shift = (70 - (shift + 7)) + 7 := by omega
          rw [heq, pow_add] at hn
          have := Nat.div_lt_of_lt_mul (m := n) (n := 2 ^ (70 - (shift + 7)))
            (k := 2 ^ 7) (by omega)
          omega)
      simp only [List.append_eq]
      rw [hrec]
      congr 2
      have hmd : n % 128 + 128 * (n / 128) = n := Nat.mod_add_div n 128
      have hp : (2 : Nat) ^ (shift + 7) = 2 ^ shift * 128 := by
        rw [pow_add]; norm_num
      rw [hp]
      have : n % 128 + 128 - 128 = n % 128 := by omega
      rw [this]
      calc acc + n % 128 * 2 ^ shift + n / 128 * (2 ^ shift * 128)
          = acc + (n % 128 + 128 * (n / 128)) * 2 ^ shift := by ring
        _ = acc + n * 2 ^ shift := by rw [hmd]

theorem varintDec_enc (n : Nat) (hn : n < 2 ^ 64) (rest : List Nat) :
    varintDec (varintEnc n ++ rest) = some (n, rest) := by
  unfold varintDec
  have := varintDecAux_enc n 0 0 rest (by omega)
    (by
      have : (2 : Nat) ^ 64 ≤ 2 ^ 70 := Nat.pow_le_pow_right (by omega) (by omega)
      simpa using by omega)
  simpa using this

theorem u64OfI64_lt (i : Int) : u64OfI64 i < 2 ^ 64 := by
  unfold u64OfI64
  omega

theorem i64OfU64_u64OfI64 (i : Int) (h1 : -(2 ^ 63) ≤ i) (h2 : i < 2 ^ 63) :
    i64OfU64 (u64OfI64 i) = i := by
  unfold u64OfI64 i64OfU64
  split <;> omega

theorem takeBytes_exact (l rest : List Nat) :
    takeBytes l.length (l ++ rest) = some (l, rest) := by
  unfold takeBytes
  rw [if_pos (by simp)]
  rw [List.take_left, List.drop_left]

theorem decodeFieldsAux_nil (fuel : Nat) (acc : Value) :
    decodeFieldsAux fuel acc [] = some acc := by
  cases fuel <;> rfl


theorem takeBytes_all (l : List Nat) : takeBytes l.length l = some (l, []) := by
  unfold takeBytes
  simp

theorem decode_encode (v : Value) (h : ValueWF v) :
    decodeValue (encodeValue v) = .ok v := by
  obtain ⟨val⟩ := v
  cases val with
  | none =>
      simp [decodeValue, encodeValue, decodeFieldsAux, defaultValue]
  | some w =>
      cases w with
      | Str s =>
          unfold ValueWF at h
          simp only at h
          show decodeValue (0x0A :: varintEnc s.length ++ s) = _
          unfold decodeValue
          have hlen : (0x0A :: varintEnc s.length ++ s).length + 1
              = ((varintEnc s.length ++ s).length + 1) + 1 := by simp
          rw [hlen]
          unfold decodeFieldsAux
          have hkey : varintDec (0x0A :: (varintEnc s.length ++ s))
              = some (0x0A, varintEnc s.length ++ s) := by
            unfold varintDec varintDecAux
            norm_num
          simp only [List.cons_append] at hkey ⊢
          rw [hkey]
          norm_num
          rw [varintDec_enc s.length h s]
          simp [takeBytes_all, decodeFieldsAux_nil]
      | Integer i =>
          unfold ValueWF at h
          simp only at h
          show decodeValue (0x10 :: varintEnc (u64OfI64 i)) = _
          unfold decodeValue
          unfold decodeFieldsAux
          have hkey : varintDec (0x10 :: varintEnc (u64OfI64 i))
              = some (0x10, varintEnc (u64OfI64 i)) := by
            unfold varintDec varintDecAux
            norm_num
          rw [hkey]
          norm_num
          have henc : varintEnc (u64OfI64 i) ++ ([] : List Nat)
              = varintEnc (u64OfI64 i) := by simp
          rw [← henc, varintDec_enc (u64OfI64 i) (u64OfI64_lt i) []]
          have hlt : u64OfI64 i < 18446744073709551616 := by
            have := u64OfI64_lt i
            omega
          simp [hlt, i64OfU64_u64OfI64 i h.1 h.2, decodeFieldsAux_nil]
      | Float bs =>
          unfold ValueWF at h
          simp only at h
          show decodeValue (0x19 :: bs) = _
          unfold decodeValue
          unfold decodeFieldsAux
          have hkey : varintDec (0x19 :: bs) = some (0x19, bs) := by
            unfold varintDec varintDecAux
            norm_num
          rw [hkey]
          norm_num
          rw [show (8 : Nat) = bs.length from h.symm, takeBytes_all bs]
          simp [decodeFieldsAux_nil]
      | Boolean b =>
          show decodeValue (0x20 :: varintEnc (cond b 1 0)) = _
          unfold decodeValue
          unfold decodeFieldsAux
          have hkey : varintDec (0x20 :: varintEnc (cond b 1 0))
              = some (0x20, varintEnc (cond b 1 0)) := by
            unfold varintDec varintDecAux
            norm_num
          rw [hkey]
          norm_num
          have henc : varintEnc (cond b 1 0) ++ ([] : List Nat)
              = varintEnc (cond b 1 0) := by simp
          rw [← henc, varintDec_enc (cond b 1 0) (by cases b <;> norm_num) []]
          cases b <;> simp [decodeFieldsAux_nil]
      | Binary bs =>
          unfold ValueWF at h
          simp only at h
          show decodeValue (0x2A :: varintEnc bs.length ++ bs) = _
          unfold decodeValue
          have hlen : (0x2A :: varintEnc bs.length ++ bs).length + 1
              = ((varintEnc bs.length ++ bs).length + 1) + 1 := by simp
          rw [hlen]
          unfold decodeFieldsAux
          have hkey : varintDec (0x2A :: (varintEnc bs.length ++ bs))
              = some (0x2A, varintEnc bs.length ++ bs) := by
            unfold varintDec varintDecAux
            norm_num
          simp only [List.cons_append] at hkey ⊢
          rw [hkey]
          norm_num
          rw [varintDec_enc bs.length h bs]
          simp [takeBytes_all, decodeFieldsAux_nil]

theorem sledInsert_fst (db : SledMap) (k v : List Nat) :
    (sledInsert db k v).1 = sledLookup db k := by
  induction db with
  | nil => rfl
  | cons e rest ih =>
      obtain ⟨k', v'⟩ := e
      unfold sledInsert sledLookup
      by_cases hk : k' = k <;> simp [hk, ih]

theorem sledInsert_lookup_self (db : SledMap) (k v : List Nat) :
    sledLookup (sledInsert db k v).2 k = some v := by
  induction db with
  | nil => simp [sledInsert, sledLookup]
  | cons e rest ih =>
      obtain ⟨k', v'⟩ := e
      unfold sledInsert
      by_cases hk : k' = k
      · simp [hk, sledLookup]
      · simp only [if_neg hk]
        unfold sledLookup
        simp [hk, ih]

theorem sledInsert_lookup_ne (db : SledMap) (k v k' : List Nat)
    (h : k' ≠ k) : sledLookup (sledInsert db k v).2 k' = sledLookup db k' := by
  induction db with
  | nil =>
      have hne : ¬ k = k' := fun he => h he.symm
      simp [sledInsert, sledLookup, hne]
  | cons e rest ih =>
      obtain ⟨k0, v0⟩ := e
      by_cases hk : k0 = k
      · subst hk
        have hne : ¬ k0 = k' := fun he => h he.symm
        simp [sledInsert, sledLookup, hne]
      · simp [sledInsert, hk, sledLookup, ih]

theorem sledRemove_fst (db : SledMap) (k : List Nat) :
    (sledRemove db k).1 = sledLookup db k := by
  induction db with
  | nil => rfl
  | cons e rest ih =>
      obtain ⟨k', v'⟩ := e
      unfold sledRemove sledLookup
      by_cases hk : k' = k <;> simp [hk, ih]

theorem sledRemove_lookup_ne (db : SledMap) (k k' : List Nat)
    (h : k' ≠ k) : sledLookup (sledRemove db k).2 k' = sledLookup db k' := by
  induction db with
  | nil => rfl
  | cons e rest ih =>
      obtain ⟨k0, v0⟩ := e
      by_cases hk : k0 = k
      · subst hk
        have hne : ¬ k0 = k' := fun he => h he.symm
        simp [sledRemove, sledLookup, hne]
      · simp [sledRemove, hk, sledLookup, ih]

theorem sledRemove_lookup_self (db : SledMap) (k : List Nat)
    (hwf : SledWF db) : sledLookup (sledRemove db k).2 k = none := by
  induction db with
  | nil => rfl
  | cons e rest ih =>
      obtain ⟨k0, v0⟩ := e
      unfold SledWF at hwf
      simp only [List.map_cons, List.nodup_cons] at hwf
      by_cases hk : k0 = k
      · subst hk
        simp only [sledRemove, if_pos rfl]
        cases hl : sledLookup rest k0 with
        | none => exact hl
        | some v =>
            exfalso
            have hmem : k0 ∈ rest.map Prod.fst := by
              clear ih hwf
              induction rest with
              | nil => simp [sledLookup] at hl
              | cons e2 r2 ih2 =>
                  obtain ⟨k2, v2⟩ := e2
                  unfold sledLookup at hl
                  by_cases hk2 : k2 = k0
                  · simp [hk2]
                  · simp only [if_neg hk2] at hl
                    simp [ih2 hl]
            exact hwf.1 hmem
      · simp [sledRemove, hk, sledLookup, ih hwf.2]

theorem sledSet_snd (db : SledMap) (t k : List Nat) (v : Value) :
    (sledSet db t k v).2
      = (sledInsert db (getFullKey t k) (valueToBytes v)).2 := by
  unfold sledSet
  dsimp only
  cases (sledInsert db (getFullKey t k) (valueToBytes v)).1 with
  | none => rfl
  | some bs =>
      dsimp only
      cases decodeValue bs <;> rfl

theorem sledSet_fst (db : SledMap) (t k : List Nat) (v : Value) :
    (sledSet db t k v).1
      = (match sledLookup db (getFullKey t k) with
          | none => .ok none
          | some bs =>
              match decodeValue bs with
              | .ok pv => .ok (some pv)
              | .error e => .error e) := by
  unfold sledSet
  dsimp only
  rw [show (sledInsert db (getFullKey t k) (valueToBytes v)).1
      = sledLookup db (getFullKey t k) from sledInsert_fst db _ _]
  cases sledLookup db (getFullKey t k) with
  | none => rfl
  | some bs =>
      dsimp only
      cases decodeValue bs <;> rfl

theorem sledDel_snd (db : SledMap) (t k : List Nat) :
    (sledDel db t k).2 = (sledRemove db (getFullKey t k)).2 := by
  unfold sledDel
  dsimp only
  cases (sledRemove db (getFullKey t k)).1 with
  | none => rfl
  | some bs =>
      dsimp only
      cases decodeValue bs <;> rfl

theorem sledDel_fst (db : SledMap) (t k : List Nat) :
    (sledDel db t k).1
      = (match sledLookup db (getFullKey t k) with
          | none => .ok none
          | some bs =>
              match decodeValue bs with
              | .ok pv => .ok (some pv)
              | .error e => .error e) := by
  unfold sledDel
  dsimp only
  rw [show (sledRemove db (getFullKey t k)).1
      = sledLookup db (getFullKey t k) from sledRemove_fst db _]
  cases sledLookup db (getFullKey t k) with
  | none => rfl
  | some bs =>
      dsimp only
      cases decodeValue bs <;> rfl

/-- C3: for the sled-backed storage, from a state with no entry at the
composed key `table + ':' + key`, `set(t,k,v1)` returns `Ok(None)`, a
subsequent `get(t,k)` returns `Ok(Some(v1))` (the value survives the
encode-on-set / decode-on-get round trip), and a subsequent
`set(t,k,v2)` returns `Ok(Some(v1))` — the previous value. -/
theorem C3_sled_set_get_roundtrip (db : SledMap) (t k : List Nat)
    (v1 v2 : Value) (h1 : ValueWF v1)
    (habs : sledLookup db (getFullKey t k) = none) :
    (sledSet db t k v1).1 = .ok none
    ∧ sledGet (sledSet db t k v1).2 t k = .ok (some v1)
    ∧ (sledSet (sledSet db t k v1).2 t k v2).1 = .ok (some v1) := by
  refine ⟨?_, ?_, ?_⟩
  · rw [sledSet_fst, habs]
  · rw [sledSet_snd]
    unfold sledGet
    rw [sledInsert_lookup_self]
    simp [valueToBytes, decode_encode v1 h1]
  · rw [sledSet_snd, sledSet_fst, sledInsert_lookup_self]
    simp [valueToBytes, decode_encode v1 h1]

/-- Witness for C3: empty database, table `"t"`, key `"k"`, a string
value and an integer value. -/
theorem C3_witness :
    ValueWF ⟨some (.Str [97])⟩
    ∧ sledLookup [] (getFullKey [116] [107]) = none
    ∧ ((sledSet [] [116] [107] ⟨some (.Str [97])⟩).1 = .ok none
      ∧ sledGet (sledSet [] [116] [107] ⟨some (.Str [97])⟩).2 [116] [107]
          = .ok (some ⟨some (.Str [97])⟩)
      ∧ (sledSet (sledSet [] [116] [107] ⟨some (.Str [97])⟩).2 [116] [107]
            ⟨some (.Integer 5)⟩).1 = .ok (some ⟨some (.Str [97])⟩)) :=
  ⟨by decide, rfl,
    C3_sled_set_get_roundtrip [] [116] [107] ⟨some (.Str [97])⟩
      ⟨some (.Integer 5)⟩ (by decide) rfl⟩

/-- C5: the sled backend stores and looks up the logical pair under
exactly the byte string `table + ':' + key`: `get` depends only on the
entry at that key, `set` writes exactly that key and leaves every other
key untouched, `contains` tests exactly that key, `del` removes exactly
that key (and no other), and `get_all`/`get_iter` enumerate exactly the
entries whose stored key starts with `table + ':'`. -/
theorem C5_sled_key_namespacing (db db2 : SledMap) (t k : List Nat)
    (v : Value) (hwf : SledWF db) :
    getFullKey t k = t ++ [colonByte] ++ k
    ∧ (sledLookup db (t ++ [colonByte] ++ k)
          = sledLookup db2 (t ++ [colonByte] ++ k) →
        sledGet db t k = sledGet db2 t k)
    ∧ sledLookup (sledSet db t k v).2 (t ++ [colonByte] ++ k)
        = some (valueToBytes v)
    ∧ (∀ k', k' ≠ t ++ [colonByte] ++ k →
        sledLookup (sledSet db t k v).2 k' = sledLookup db k')
    ∧ sledContains db t k
        = .ok (sledLookup db (t ++ [colonByte] ++ k)).isSome
    ∧ sledLookup (sledDel db t k).2 (t ++ [colonByte] ++ k) = none
    ∧ (∀ k', k' ≠ t ++ [colonByte] ++ k →
        sledLookup (sledDel db t k).2 k' = sledLookup db k')
    ∧ (∀ e, e ∈ sledScanPre db (getTablePre t) ↔
        e ∈ db ∧ (t ++ [colonByte]).isPrefixOf e.1 = true)
    ∧ sledGetAll db t
        = .ok ((sledScanPre db (getTablePre t)).map kvpairOfEntry)
    ∧ sledGetIter db t = (sledScanPre db (getTablePre t)).map kvpairOfEntry := by
  have hfk : getFullKey t k = t ++ [colonByte] ++ k := rfl
  refine ⟨rfl, ?_, ?_, ?_, rfl, ?_, ?_, ?_, rfl, rfl⟩
  · intro heq
    unfold sledGet
    rw [← hfk] at heq
    rw [heq]
  · rw [sledSet_snd, ← hfk, sledInsert_lookup_self]
  · intro k' hne
    rw [sledSet_snd]
    exact sledInsert_lookup_ne db _ _ k' (by rw [hfk]; exact hne)
  · rw [sledDel_snd, ← hfk, sledRemove_lookup_self db _ hwf]
  · intro k' hne
    rw [sledDel_snd]
    exact sledRemove_lookup_ne db _ k' (by rw [hfk]; exact hne)
  · intro e
    unfold sledScanPre getTablePre
    simp [List.mem_filter]

/-- Witness for C5 at a concrete one-entry database. -/
theorem C5_witness :
    getFullKey [116] [107] = [116] ++ [colonByte] ++ [107]
    ∧ (sledLookup [([116, 58, 107], [10, 1, 97])]
          ([116] ++ [colonByte] ++ [107])
          = sledLookup [([116, 58, 107], [10, 1, 97])]
              ([116] ++ [colonByte] ++ [107]) →
        sledGet [([116, 58, 107], [10, 1, 97])] [116] [107]
          = sledGet [([116, 58, 107], [10, 1, 97])] [116] [107])
    ∧ sledLookup
        (sledSet [([116, 58, 107], [10, 1, 97])] [116] [107]
          ⟨some (.Boolean true)⟩).2 ([116] ++ [colonByte] ++ [107])
        = some (valueToBytes ⟨some (.Boolean true)⟩)
    ∧ (∀ k', k' ≠ [116] ++ [colonByte] ++ [107] →
        sledLookup
          (sledSet [([116, 58, 107], [10, 1, 97])] [116] [107]
            ⟨some (.Boolean true)⟩).2 k'
          = sledLookup [([116, 58, 107], [10, 1, 97])] k')
    ∧ sledContains [([116, 58, 107], [10, 1, 97])] [116] [107]
        = .ok (sledLookup [([116, 58, 107], [10, 1, 97])]
            ([116] ++ [colonByte] ++ [107])).isSome
    ∧ sledLookup (sledDel [([116, 58, 107], [10, 1, 97])] [116] [107]).2
        ([116] ++ [colonByte] ++ [107]) = none
    ∧ (∀ k', k' ≠ [116] ++ [colonByte] ++ [107] →
        sledLookup (sledDel [([116, 58, 107], [10, 1, 97])] [116] [107]).2 k'
          = sledLookup [([116, 58, 107], [10, 1, 97])] k')
    ∧ (∀ e, e ∈ sledScanPre [([116, 58, 107], [10, 1, 97])]
          (getTablePre [116]) ↔
        e ∈ [([116, 58, 107], [10, 1, 97])]
          ∧ ([116] ++ [colonByte]).isPrefixOf e.1 = true)
    ∧ sledGetAll [([116, 58, 107], [10, 1, 97])] [116]
        = .ok ((sledScanPre [([116, 58, 107], [10, 1, 97])]
            (getTablePre [116])).map kvpairOfEntry)
    ∧ sledGetIter [([116, 58, 107], [10, 1, 97])] [116]
        = (sledScanPre [([116, 58, 107], [10, 1, 97])]
            (getTablePre [116])).map kvpairOfEntry :=
  C5_sled_key_namespacing [([116, 58, 107], [10, 1, 97])]
    [([116, 58, 107], [10, 1, 97])] [116] [107] ⟨some (.Boolean true)⟩
    (by unfold SledWF; decide)

theorem splitOnByte_ne_nil (sep : Nat) (l : List Nat) :
    splitOnByte sep l ≠ [] := by
  cases l with
  | nil => simp [splitOnByte]
  | cons b rest =>
      unfold splitOnByte
      by_cases hb : b = sep
      · simp [hb]
      · simp only [if_neg hb]
        cases splitOnByte sep rest <;> simp

theorem splitOnByte_head (sep : Nat) (l : List Nat) :
    (splitOnByte sep l).head? = some (l.takeWhile (fun b => b != sep)) := by
  induction l with
  | nil => simp [splitOnByte]
  | cons b rest ih =>
      unfold splitOnByte
      by_cases hb : b = sep
      · simp [hb, List.takeWhile]
      · simp only [if_neg hb]
        cases hr : splitOnByte sep rest with
        | nil => exact absurd hr (splitOnByte_ne_nil sep rest)
        | cons seg segs =>
            rw [hr] at ih
            simp only [List.head?] at ih
            have hbne : (b != sep) = true := by simp [hb]
            simp [List.takeWhile, hbne, ← Option.some_inj.mp ih]

theorem splitOnByte_sep_free_append (sep : Nat) (t k : List Nat)
    (ht : sep ∉ t) :
    splitOnByte sep (t ++ sep :: k) = t :: splitOnByte sep k := by
  induction t with
  | nil => simp [splitOnByte]
  | cons b t' ih =>
      have hb : b ≠ sep := fun he => ht (by simp [he])
      have ht' : sep ∉ t' := fun hm => ht (by simp [hm])
      simp only [List.cons_append]
      rw [splitOnByte]
      rw [if_neg hb, ih ht']

theorem takeWhile_of_no_sep (sep : Nat) (k : List Nat) (hk : sep ∉ k) :
    k.takeWhile (fun b => b != sep) = k := by
  induction k with
  | nil => rfl
  | cons b rest ih =>
      have hb : b ≠ sep := fun he => hk (by simp [he])
      have hr : sep ∉ rest := fun hm => hk (by simp [hm])
      have hbne : (b != sep) = true := by simp [hb]
      simp [List.takeWhile, hbne, ih hr]

theorem ivecToKey_full (t k : List Nat) (ht : colonByte ∉ t) :
    ivecToKey (getFullKey t k)
      = some (k.takeWhile (fun b => b != colonByte)) := by
  unfold ivecToKey getFullKey
  rw [List.append_assoc, List.singleton_append,
    splitOnByte_sep_free_append colonByte t k ht]
  simp [splitOnByte_head]

/-- C10: every pair reported by the sled backend's table scan carries as
its key the second `':'`-separated segment of the stored full key: when
the table has no `':'`, that is the logical key truncated at its first
`':'` — the unmodified logical key if it has none — so a key such as
`"a:b"` comes back as `"a"` and a set-then-get_all round trip does not
preserve it. -/
theorem C10_reported_key_truncation (t k : List Nat)
    (ht : colonByte ∉ t) :
    ivecToKey (getFullKey t k)
        = some (k.takeWhile (fun b => b != colonByte))
    ∧ (colonByte ∉ k → ivecToKey (getFullKey t k) = some k)
    ∧ (∀ bs v, decodeValue bs = .ok v →
        kvpairOfEntry (getFullKey t k, bs)
          = kvpairNew (k.takeWhile (fun b => b != colonByte)) v)
    ∧ (∀ v, ValueWF v →
        sledGetAll (sledSet [] t k v).2 t
          = .ok [kvpairNew (k.takeWhile (fun b => b != colonByte)) v]) := by
  refine ⟨ivecToKey_full t k ht, ?_, ?_, ?_⟩
  · intro hk
    rw [ivecToKey_full t k ht, takeWhile_of_no_sep colonByte k hk]
  · intro bs v hdec
    unfold kvpairOfEntry
    simp only [hdec, ivecToKey_full t k ht]
  · intro v hv
    rw [sledSet_snd]
    show sledGetAll [(getFullKey t k, valueToBytes v)] t = _
    unfold sledGetAll sledScanPre
    have hpre : (getTablePre t).isPrefixOf (getFullKey t k) = true := by
      unfold getTablePre getFullKey
      have : (t ++ [colonByte]) <+: (t ++ [colonByte] ++ k) :=
        List.prefix_append _ _
      exact List.isPrefixOf_iff_prefix.mpr this
    simp only [List.filter, hpre, List.map]
    unfold kvpairOfEntry
    simp only [valueToBytes, decode_encode v hv, ivecToKey_full t k ht]

/-- Witness for C10 at table `"t"` and key `"a:b"`, whose reported key
truncates to `"a"`. -/
theorem C10_witness :
    ivecToKey (getFullKey [116] [97, 58, 98])
        = some ([97, 58, 98].takeWhile (fun b => b != colonByte))
    ∧ (colonByte ∉ [97, 58, 98] →
        ivecToKey (getFullKey [116] [97, 58, 98]) = some [97, 58, 98])
    ∧ (∀ bs v, decodeValue bs = .ok v →
        kvpairOfEntry (getFullKey [116] [97, 58, 98], bs)
          = kvpairNew ([97, 58, 98].takeWhile (fun b => b != colonByte)) v)
    ∧ (∀ v, ValueWF v →
        sledGetAll (sledSet [] [116] [97, 58, 98] v).2 [116]
          = .ok [kvpairNew
              ([97, 58, 98].takeWhile (fun b => b != colonByte)) v]) :=
  C10_reported_key_truncation [116] [97, 58, 98] (by decide)

/-- C8 counterexample: the claim says `get_all` returns an error when a
stored byte string fails to decode, but on the concrete database holding
`"t:k" ↦ 0x80` (a truncated varint, which `decodeValue` rejects)
`get_all("t")` succeeds, silently substituting `Kvpair::default()`. -/
theorem C8_counterexample :
    decodeValue [128] = .error (.DecodeError [])
    ∧ sledGetAll badDb [116] = .ok [kvpairDefault]
    ∧ ∀ e, sledGetAll badDb [116] ≠ .error e := by
  refine ⟨rfl, rfl, fun e h => ?_⟩
  rw [show sledGetAll badDb [116] = .ok [kvpairDefault] from rfl] at h
  exact Except.noConfusion h

/-- C8 as amended: for the sled backend, when the stored byte string at
`table:key` fails to decode as a `Value`, `get`, `del`, and `set`
(previous value) each surface the decode error; `get_all`, however,
always returns `Ok`, converting each entry whose value fails to decode
into `Kvpair::default()` instead of an error. -/
theorem C8_decode_failure_propagation (db : SledMap) (t k bs : List Nat)
    (v : Value) (e : KvError)
    (hlk : sledLookup db (getFullKey t k) = some bs)
    (hdec : decodeValue bs = .error e) :
    sledGet db t k = .error e
    ∧ (sledDel db t k).1 = .error e
    ∧ (sledSet db t k v).1 = .error e
    ∧ sledGetAll db t
        = .ok ((sledScanPre db (getTablePre t)).map kvpairOfEntry)
    ∧ (∀ p : List Nat × List Nat, ∀ e' : KvError,
        decodeValue p.2 = .error e' → kvpairOfEntry p = kvpairDefault) := by
  refine ⟨?_, ?_, ?_, rfl, ?_⟩
  · unfold sledGet
    simp only [hlk, hdec]
  · rw [sledDel_fst]
    simp only [hlk, hdec]
  · rw [sledSet_fst]
    simp only [hlk, hdec]
  · intro p e' hde
    unfold kvpairOfEntry
    rw [hde]

/-- Witness for the amended C8 on the concrete bad database. -/
theorem C8_witness :
    sledLookup badDb (getFullKey [116] [107]) = some [128]
    ∧ decodeValue [128] = .error (.DecodeError [])
    ∧ (sledGet badDb [116] [107] = .error (.DecodeError [])
      ∧ (sledDel badDb [116] [107]).1 = .error (.DecodeError [])
      ∧ (sledSet badDb [116] [107] defaultValue).1
          = .error (.DecodeError [])
      ∧ sledGetAll badDb [116]
          = .ok ((sledScanPre badDb (getTablePre [116])).map kvpairOfEntry)
      ∧ (∀ p : List Nat × List Nat, ∀ e' : KvError,
          decodeValue p.2 = .error e' → kvpairOfEntry p = kvpairDefault)) :=
  ⟨rfl, rfl,
    C8_decode_failure_propagation badDb [116] [107] [128] defaultValue
      (.DecodeError []) rfl rfl⟩

theorem pollFlushAux_complete (steps : List Nat) :
    ∀ st : SinkState,
      stepsFit steps (st.wbuf.length - st.written) = true →
      st.written ≤ st.wbuf.length →
      pollFlushAux steps st
        = some { streamBytes := st.streamBytes ++ st.wbuf.drop st.written,
                 closedFlag := st.closedFlag, wbuf := [], written := 0 } := by
  induction steps with
  | nil =>
      intro st hfit hle
      cases hrem : st.wbuf.length - st.written with
      | zero =>
          have hw : st.written = st.wbuf.length := by omega
          have hdrop : st.wbuf.drop st.written = [] := by
            rw [hw]
            exact List.drop_length _
          unfold pollFlushAux
          rw [if_pos hw, hdrop]
          simp
      | succ m =>
          rw [hrem] at hfit
          simp [stepsFit] at hfit
  | cons n rest ih =>
      intro st hfit hle
      by_cases hdone : st.written = st.wbuf.length
      · have hdrop : st.wbuf.drop st.written = [] := by
          rw [hdone]
          exact List.drop_length _
        unfold pollFlushAux
        rw [if_pos hdone, hdrop]
        simp
      · have hrem : st.wbuf.length - st.written
            = (st.wbuf.length - st.written - 1) + 1 := by omega
        rw [hrem] at hfit
        unfold stepsFit at hfit
        simp only [Bool.and_eq_true, decide_eq_true_eq] at hfit
        obtain ⟨⟨hn1, hn2⟩, hrest⟩ := hfit
        have hstep : pollFlushAux (n :: rest) st
            = pollFlushAux rest
              { st with
                streamBytes :=
                  st.streamBytes ++ (st.wbuf.drop st.written).take n,
                written := st.written + n } := by
          conv_lhs => rw [pollFlushAux]
          rw [if_neg hdone]
        rw [hstep]
        have hfitArg : stepsFit rest
            (st.wbuf.length - (st.written + n)) = true := by
          have harg : st.wbuf.length - (st.written + n)
              = st.wbuf.length - st.written - 1 + 1 - n := by omega
          rw [harg]
          exact hrest
        have hleArg : st.written + n ≤ st.wbuf.length := by omega
        rw [ih { st with
            streamBytes := st.streamBytes ++ (st.wbuf.drop st.written).take n,
            written := st.written + n }
          (by simpa using hfitArg) (by simpa using hleArg)]
        have hjoin : (st.wbuf.drop st.written).take n
            ++ st.wbuf.drop (st.written + n) = st.wbuf.drop st.written := by
          conv_rhs => rw [← List.take_append_drop n (st.wbuf.drop st.written)]
          congr 1
          rw [List.drop_drop, Nat.add_comm]
        simp only [List.append_assoc, hjoin]


/-- C6: for the `ProstStream` sink, `poll_ready` is immediately
`Ready(Ok)` with the state untouched; `start_send` only appends the
encoded frame to the write buffer and does not touch the underlying
stream; `poll_flush` loops over partial writes until every buffered byte
from `written` onward has been handed to the underlying stream, then
clears the write buffer and resets the counter to zero; and `poll_close`
is exactly that flush followed by stream shutdown. -/
theorem C6_sink_contract (st : SinkState) (encoded : List Nat)
    (steps : List Nat)
    (hfit : stepsFit steps (st.wbuf.length - st.written) = true)
    (hle : st.written ≤ st.wbuf.length) :
    pollReady st = (true, st)
    ∧ startSend st encoded = { st with wbuf := st.wbuf ++ encoded }
    ∧ (startSend st encoded).streamBytes = st.streamBytes
    ∧ (startSend st encoded).closedFlag = st.closedFlag
    ∧ pollFlushAux steps st
        = some { streamBytes := st.streamBytes ++ st.wbuf.drop st.written,
                 closedFlag := st.closedFlag, wbuf := [], written := 0 }
    ∧ pollClose steps st
        = some { streamBytes := st.streamBytes ++ st.wbuf.drop st.written,
                 closedFlag := true, wbuf := [], written := 0 } := by
  refine ⟨rfl, rfl, rfl, rfl, pollFlushAux_complete steps st hfit hle, ?_⟩
  unfold pollClose
  rw [pollFlushAux_complete steps st hfit hle]
  rfl

/-- Witness for C6: three buffered bytes, one already counted as
written, drained by two partial writes of one byte each. -/
theorem C6_witness :
    pollReady ⟨[9], false, [1, 2, 3], 1⟩ = (true, ⟨[9], false, [1, 2, 3], 1⟩)
    ∧ startSend ⟨[9], false, [1, 2, 3], 1⟩ [7]
        = { streamBytes := [9], closedFlag := false, wbuf := [1, 2, 3] ++ [7],
            written := 1 }
    ∧ (startSend ⟨[9], false, [1, 2, 3], 1⟩ [7]).streamBytes = [9]
    ∧ (startSend ⟨[9], false, [1, 2, 3], 1⟩ [7]).closedFlag = false
    ∧ pollFlushAux [1, 1] ⟨[9], false, [1, 2, 3], 1⟩
        = some { streamBytes := [9] ++ List.drop 1 [1, 2, 3],
                 closedFlag := false, wbuf := [], written := 0 }
    ∧ pollClose [1, 1] ⟨[9], false, [1, 2, 3], 1⟩
        = some { streamBytes := [9] ++ List.drop 1 [1, 2, 3],
                 closedFlag := true, wbuf := [], written := 0 } :=
  C6_sink_contract ⟨[9], false, [1, 2, 3], 1⟩ [7] [1, 1] (by decide)
    (by decide)

/-- C7: for the `ProstStream` inbound sequence, under the precondition
that `decode_frame` consumes exactly the one complete frame that
`read_frame` appended (decoding leaves an empty remainder), every
successful `poll_next` leaves the internal read buffer empty, so the
`assert!(self.rbuf.is_empty())` at the start of the next call never
fails: iterating `poll_next` over any sequence of such frames from an
empty buffer completes without tripping the assertion and yields one
successfully decoded item per frame. -/
theorem C7_read_buffer_invariant {μ : Type}
    (dec : List Nat → Except KvError (μ × List Nat))
    (frames : List (List Nat))
    (h : ∀ f ∈ frames, ∃ m : μ, dec f = .ok (m, [])) :
    ∃ ms : List μ,
      pollNextAll dec frames ⟨[]⟩ = some (ms.map .ok)
        ∧ ms.length = frames.length := by
  induction frames with
  | nil =>
      refine ⟨[], ?_, rfl⟩
      rw [pollNextAll]
      rfl
  | cons f rest ih =>
      obtain ⟨m, hm⟩ := h f (by simp)
      obtain ⟨ms, hms, hlen⟩ := ih (fun g hg => h g (by simp [hg]))
      refine ⟨m :: ms, ?_, by simp [hlen]⟩
      rw [pollNextAll]
      have hpoll : pollNext dec (f :: rest) (⟨[]⟩ : ReadState)
          = (.item (.ok m) ⟨[]⟩, rest) := by
        unfold pollNext
        simp [hm]
      rw [hpoll]
      simp [hms]

/-- Witness for C7: a length-reporting decoder that consumes its whole
frame, applied to two concrete frames. -/
theorem C7_witness :
    (∀ f ∈ [[1], [2, 3]],
        ∃ m : Nat, (fun l => (Except.ok (l.length, ([] : List Nat)) : Except KvError (Nat × List Nat))) f
          = Except.ok (m, []))
    ∧ ∃ ms : List Nat,
        pollNextAll (fun l => (Except.ok (l.length, ([] : List Nat)) : Except KvError (Nat × List Nat)))
            [[1], [2, 3]] ⟨[]⟩ = some (ms.map .ok)
          ∧ ms.length = ([[1], [2, 3]] : List (List Nat)).length :=
  ⟨fun f _ => ⟨f.length, rfl⟩,
    C7_read_buffer_invariant
      (fun l => (Except.ok (l.length, ([] : List Nat)) : Except KvError (Nat × List Nat)))
      [[1], [2, 3]] (fun f _ => ⟨f.length, rfl⟩)⟩

/-- C9: `load_key` first scans the input for PKCS#8 keys and returns
the first one that parses; only if no PKCS#8 key parses does it rescan
for PKCS#1 RSA keys and return the first one that parses; if neither
scan yields a key it returns the certificate-parse error on
`("private", "key")`.  In every case at most the first valid key of the
winning scan is used. -/
theorem C9_load_key_order (file : List PemEntry) :
    (∀ k, ((pkcs8PrivateKeys file).filterMap id).head? = some k →
        loadKey file = .ok (.pkcs8Key k))
    ∧ ((pkcs8PrivateKeys file).filterMap id = [] →
        ∀ k, ((rsaPrivateKeys file).filterMap id).head? = some k →
          loadKey file = .ok (.rsaKey k))
    ∧ ((pkcs8PrivateKeys file).filterMap id = [] →
        (rsaPrivateKeys file).filterMap id = [] →
          loadKey file = .error (.CertifcateParseError
            [112, 114, 105, 118, 97, 116, 101] [107, 101, 121])) := by
  refine ⟨fun k hk => ?_, fun h8 k hk => ?_, fun h8 hr => ?_⟩
  · unfold loadKey
    rw [hk]
  · unfold loadKey
    rw [h8, hk]
    rfl
  · unfold loadKey
    rw [h8, hr]
    rfl

/-- Witness for C9 on a file holding a bad PKCS#8 section followed by a
good RSA section and a good PKCS#8 section: the PKCS#8 scan wins with
the first parsing PKCS#8 key. -/
theorem C9_witness :
    (∀ k, ((pkcs8PrivateKeys
          [.pkcs8 none, .rsa (some 7), .pkcs8 (some 3)]).filterMap id).head?
        = some k →
        loadKey [.pkcs8 none, .rsa (some 7), .pkcs8 (some 3)]
          = .ok (.pkcs8Key k))
    ∧ (((pkcs8PrivateKeys
          [.pkcs8 none, .rsa (some 7), .pkcs8 (some 3)]).filterMap id) = [] →
        ∀ k, ((rsaPrivateKeys
            [.pkcs8 none, .rsa (some 7), .pkcs8 (some 3)]).filterMap id).head?
          = some k →
          loadKey [.pkcs8 none, .rsa (some 7), .pkcs8 (some 3)]
            = .ok (.rsaKey k))
    ∧ (((pkcs8PrivateKeys
          [.pkcs8 none, .rsa (some 7), .pkcs8 (some 3)]).filterMap id) = [] →
        ((rsaPrivateKeys
          [.pkcs8 none, .rsa (some 7), .pkcs8 (some 3)]).filterMap id) = [] →
          loadKey [.pkcs8 none, .rsa (some 7), .pkcs8 (some 3)]
            = .error (.CertifcateParseError
              [112, 114, 105, 118, 97, 116, 101] [107, 101, 121])) :=
  C9_load_key_order [.pkcs8 none, .rsa (some 7), .pkcs8 (some 3)]
